import Mathlib

/-!
Shallow embedding of the query-to-endpoint matching engine of the mcphy
repository (`src/server/queryMatcher.ts` and the type-inference helper of the
manifest generator), together with proofs about the matching, extraction and
missing-information analysis it performs.

Strings are processed as `List Char`; the JavaScript regular expressions used
by the matcher are embedded as explicit scanners with the same leftmost-match,
greedy-with-backtracking semantics on the character classes they use.
-/

set_option autoImplicit false

namespace Mcphy

/-! ## Character classes and string primitives (JS regex classes `\w`, `\s`, etc.) -/

/-- JS `\w`: ASCII letters, digits and underscore. -/
def isWordChar (c : Char) : Bool := c.isAlphanum || c = '_'

/-- The character class `[\w-]` used by the parameter-value pattern. -/
def isWordHyphen (c : Char) : Bool := isWordChar c || c = '-'

/-- JS `\s` (restricted to the whitespace characters that occur in queries). -/
def isWs (c : Char) : Bool := c.isWhitespace

/-- The class `[:\s]` of the `name[:\s]+value` patterns. -/
def isColonWs (c : Char) : Bool := c = ':' || isWs c

/-- `pre.isPrefixOf l` on characters, written out so the kernel reduces it. -/
def charsPrefix : List Char → List Char → Bool
  | [], _ => true
  | _ :: _, [] => false
  | a :: as, b :: bs => a = b && charsPrefix as bs

/-- JS `String.prototype.includes`: `pat` occurs as a contiguous substring of `s`. -/
def strIncludes (s pat : List Char) : Bool :=
  match s with
  | [] => pat.isEmpty
  | _ :: rest => charsPrefix pat s || strIncludes rest pat

/-- `s.includes(pat)` on Lean strings. -/
def strContains (s pat : String) : Bool := strIncludes s.data pat.data

/-- `s.toLowerCase()` (ASCII). -/
def lowerStr (s : String) : String := String.mk (s.data.map Char.toLower)

/-- Lower-cased character data of a query, as computed by `query.toLowerCase()`. -/
def lowerData (q : String) : List Char := q.data.map Char.toLower

/-- `s.endsWith(pat)`. -/
def strEndsWith (s pat : String) : Bool := charsPrefix pat.data.reverse s.data.reverse

/-- `s.startsWith(pat)`. -/
def strStartsWith (s pat : String) : Bool := charsPrefix pat.data s.data

/-- `s.split('/')` (single-character separator, keeping empty pieces). -/
def splitOnChar (sep : Char) (l : List Char) : List (List Char) :=
  match l with
  | [] => [[]]
  | c :: rest =>
    let r := splitOnChar sep rest
    if c = sep then [] :: r
    else
      match r with
      | [] => [[c]]
      | h :: t => (c :: h) :: t

/-- `s.split(/\s+/)`-like word splitting: pieces between single whitespace
characters.  Runs of whitespace yield extra empty pieces; those never score in
the matcher (they fail the `length > 3` test), so the split is interchangeable
with the JS one everywhere it is consumed. -/
def splitWsPieces (l : List Char) : List (List Char) :=
  match l with
  | [] => [[]]
  | c :: rest =>
    let r := splitWsPieces rest
    if isWs c then [] :: r
    else
      match r with
      | [] => [[c]]
      | h :: t => (c :: h) :: t

/-! ## Scanners for the regular expressions of the fallback matcher -/

/-- Try a position-anchored matcher `f` at every start position, left to right
(the search behaviour of an unanchored JS regex). -/
def scanFor (f : List Char → Option (List Char)) : List Char → Option (List Char)
  | [] => none
  | c :: rest =>
    match f (c :: rest) with
    | some v => some v
    | none => scanFor f rest

/-- Case-insensitive literal prefix: `pat` is already lower-cased, the input is
lowered character by character (the `i` regex flag). Returns the remainder. -/
def dropPrefixCI : List Char → List Char → Option (List Char)
  | [], s => some s
  | _ :: _, [] => none
  | p :: ps, c :: cs => if c.toLower = p then dropPrefixCI ps cs else none

/-- Length of the maximal run of `[:\s]` characters. -/
def colonWsRun (l : List Char) : Nat := (l.takeWhile isColonWs).length

/-- Greedy `[:\s]+` followed by a value matcher, with backtracking from the
longest separator run down to a single separator character. -/
def trySeps (valueM : List Char → Option (List Char)) (rest : List Char) :
    Nat → Option (List Char)
  | 0 => none
  | Nat.succ k =>
    match valueM (rest.drop (Nat.succ k)) with
    | some v => some v
    | none => trySeps valueM rest k

/-- One alternation `(?:a1|a2|...)` of literal names followed by `[:\s]+` and a
captured value, anchored at the current position; alternatives tried in order. -/
def matchAltsAt (valueM : List Char → Option (List Char)) :
    List String → List Char → Option (List Char)
  | [], _ => none
  | alt :: alts, l =>
    match dropPrefixCI (alt.data.map Char.toLower) l with
    | some rest =>
      match trySeps valueM rest (colonWsRun rest) with
      | some v => some v
      | none => matchAltsAt valueM alts l
    | none => matchAltsAt valueM alts l

/-- First (leftmost) match of `(?:a1|a2|...)[:\s]+(value)` in the query. -/
def findAltValue (valueM : List Char → Option (List Char)) (alts : List String)
    (q : List Char) : Option (List Char) :=
  scanFor (matchAltsAt valueM alts) q

/-- A maximal nonempty run of characters satisfying `p` (a greedy `[...]+`). -/
def takeRun (p : Char → Bool) (l : List Char) : Option (List Char) :=
  let v := l.takeWhile p
  if v.isEmpty then none else some v

/-- `([\w-]+)`. -/
def wordHyphenValue (l : List Char) : Option (List Char) := takeRun isWordHyphen l

/-- `([^,\s]+)`. -/
def noWsCommaValue (l : List Char) : Option (List Char) :=
  takeRun (fun c => !isWs c && !(c = ',')) l

/-- `([^\s]+)`. -/
def noWsValue (l : List Char) : Option (List Char) := takeRun (fun c => !isWs c) l

/-- `([^,]+)`. -/
def noCommaValue (l : List Char) : Option (List Char) :=
  takeRun (fun c => !(c = ',')) l

/-- `\d{n}` anchored at the current position: exactly `n` digits, returning the
digits and the remainder. -/
def digitsN : Nat → List Char → Option (List Char × List Char)
  | 0, l => some ([], l)
  | Nat.succ _, [] => none
  | Nat.succ n, c :: cs =>
    if c.isDigit then (digitsN n cs).map (fun p => (c :: p.1, p.2)) else none

/-- A single expected literal character. -/
def expectChar (c : Char) : List Char → Option (List Char)
  | [] => none
  | a :: as => if a = c then some as else none

/-- `(\d{4}-\d{2}-\d{2})` anchored at the current position. -/
def dateAt (l : List Char) : Option (List Char) :=
  match digitsN 4 l with
  | none => none
  | some (d1, r1) =>
    match expectChar '-' r1 with
    | none => none
    | some r2 =>
      match digitsN 2 r2 with
      | none => none
      | some (d2, r3) =>
        match expectChar '-' r3 with
        | none => none
        | some r4 =>
          match digitsN 2 r4 with
          | none => none
          | some (d3, _) => some (d1 ++ ('-' :: d2) ++ ('-' :: d3))

/-- First `YYYY-MM-DD` literal anywhere in the query (`/(\d{4}-\d{2}-\d{2})/`). -/
def findDate (q : List Char) : Option (List Char) := scanFor dateAt q

/-- `(\d{4})` anchored at the current position. -/
def year4Value (l : List Char) : Option (List Char) := (digitsN 4 l).map (·.1)

/-- `([^\s]+@[^\s]+)`: the maximal non-whitespace run, accepted when it has an
`@` that is neither its first nor its last character (greedy first part with
backtracking makes the capture the whole run). -/
def emailValue (l : List Char) : Option (List Char) :=
  let run := l.takeWhile (fun c => !isWs c)
  if (run.drop 1).dropLast.contains '@' then some run else none

/-- First match of `name[:\s]+([\w-]+)` (case-insensitive) in the query. -/
def findNameValue (name : String) (q : List Char) : Option (List Char) :=
  findAltValue wordHyphenValue [name] q

/-! ## JavaScript values and `parseInt` -/

/-- The values the fallback matcher can store in `params`: raw strings from the
regex captures, or the result of `parseInt(value, 10)` (a number or `NaN`). -/
inductive JsVal where
  | str : String → JsVal
  | int : Int → JsVal
  | nan : JsVal
deriving DecidableEq

/-- Leading decimal digits of a character list. -/
def leadingDigits (l : List Char) : List Char := l.takeWhile Char.isDigit

/-- Numeric value of a list of decimal digits. -/
def digitsToNat (l : List Char) : Nat :=
  l.foldl (fun acc c => acc * 10 + (c.toNat - 48)) 0

/-- JS `parseInt(value, 10)` on a `[\w-]+` capture: optional leading minus sign
followed by leading digits; anything after the digits is ignored; `none` models
`NaN`. -/
def parseIntJs (l : List Char) : Option Int :=
  match l with
  | '-' :: rest =>
    let ds := leadingDigits rest
    if ds.isEmpty then none else some (-(digitsToNat ds : Int))
  | _ =>
    let ds := leadingDigits l
    if ds.isEmpty then none else some ((digitsToNat ds : Int))

/-! ## JS objects as association lists (insertion order, unique keys) -/

/-- `obj[k] = v`: overwrite the first binding in place, else append. -/
def setKey : List (String × JsVal) → String → JsVal → List (String × JsVal)
  | [], k, v => [(k, v)]
  | p :: rest, k, v => if p.1 = k then (k, v) :: rest else p :: setKey rest k v

/-- `k in obj`. -/
def hasKey : List (String × JsVal) → String → Bool
  | [], _ => false
  | p :: rest, k => p.1 = k || hasKey rest k

/-- `obj[k]` (reading). -/
def lookupKey : List (String × JsVal) → String → Option JsVal
  | [], _ => none
  | p :: rest, k => if p.1 = k then some p.2 else lookupKey rest k

/-- `Object.assign(target, source)`: assign every binding of `source` into
`target`, in order. -/
def objAssign (target source : List (String × JsVal)) : List (String × JsVal) :=
  source.foldl (fun acc p => setKey acc p.1 p.2) target

/-! ## Endpoint catalog data model (`manifest.ts`) -/

/-- `MCPParameter`. `location` is optional in the manifest data consumed at run
time even though the TS interface declares it, and the matcher infers it when
absent. -/
structure MCPParameter where
  name : String
  type : String
  required : Bool
  description : Option String
  location : Option String
deriving DecidableEq

/-- `MCPRequestBodyProperty`. -/
structure MCPRequestBodyProperty where
  type : String
  description : Option String
  required : Option Bool
deriving DecidableEq

/-- `MCPRequestBody` (the free-form `schema` field is not modelled; the matcher
never reads it). -/
structure MCPRequestBody where
  required : Option Bool
  properties : Option (List (String × MCPRequestBodyProperty))
  requiredFields : Option (List String)
deriving DecidableEq

/-- `MCPEndpoint` (the free-form `response` field is not modelled; the fallback
matcher never reads it). -/
structure MCPEndpoint where
  path : String
  method : String
  description : Option String
  parameters : Option (List MCPParameter)
  requestBody : Option MCPRequestBody
deriving DecidableEq

/-- `MCPManifest`. -/
structure MCPManifest where
  version : String
  name : String
  description : String
  endpoints : List MCPEndpoint
deriving DecidableEq

/-- `['POST', 'PUT', 'PATCH'].includes(method)`. -/
def isMutating (method : String) : Bool :=
  method = "POST" || method = "PUT" || method = "PATCH"

/-! ## Result data model (`QueryMatchResult`) -/

/-- `ParameterDetail`. -/
structure ParameterDetail where
  name : String
  value : Option JsVal
  description : Option String
  type : String
  required : Bool
  location : Option String
  source : String
deriving DecidableEq

/-- The `missingInfo` component of a match result. -/
structure MissingInfo where
  requiredParams : List String
  suggestions : List String
  exampleQuery : String
  requestBodyFields : Option (List String)
deriving DecidableEq

/-- `QueryMatchResult`: the single output contract of the engine. -/
structure MatchResult where
  endpoint : String
  method : String
  params : Option (List (String × JsVal))
  confidence : Option ℚ
  reasoning : Option String
  summary : String
  endpointDescription : Option String
  parameterDetails : Option (List ParameterDetail)
  expectedResponse : Option String
  apiName : Option String
  missingInfo : Option MissingInfo
  guidance : Option String
deriving DecidableEq

/-! ## Fallback parameter extraction (`extractParametersFromQuery`) -/

/-- Coercion applied to a `name[:\s]+([\w-]+)` capture:
`param.type === 'integer' ? parseInt(value, 10) : value`. -/
def coerceParamValue (t : String) (v : List Char) : JsVal :=
  if t = "integer" then
    match parseIntJs v with
    | some n => JsVal.int n
    | none => JsVal.nan
  else JsVal.str (String.mk v)

/-- One iteration of the declared-parameter extraction loop: the name-based
`name[:\s]+([\w-]+)` pattern first, then — for string-typed parameters whose
name contains "date" — the `YYYY-MM-DD` literal search, which overwrites. -/
def processParam (query : List Char) (params : List (String × JsVal))
    (p : MCPParameter) : List (String × JsVal) :=
  let params1 :=
    match findNameValue p.name query with
    | some v => setKey params p.name (coerceParamValue p.type v)
    | none => params
  if p.type = "string" && strContains p.name "date" then
    match findDate query with
    | some d => setKey params1 p.name (JsVal.str (String.mk d))
    | none => params1
  else params1

/-- `extractParametersFromQuery(query, endpoint)`: empty when the endpoint is
`null` or declares no parameters, else the declared parameters processed in
order. -/
def extractParametersFromQuery (query : List Char) (endpoint : Option MCPEndpoint) :
    List (String × JsVal) :=
  match endpoint with
  | none => []
  | some e =>
    match e.parameters with
    | none => []
    | some ps => ps.foldl (processParam query) []

/-! ## Request-body field extraction (`extractRequestBodyFields`) -/

/-- Single-quote character (written via its code point to keep source plain). -/
def squote : Char := Char.ofNat 39

/-- Double-quote character. -/
def dquote : Char := Char.ofNat 34

/-- `(\w+)\s*=\s*["']([^"']+)["']` anchored at the current position.  The
greedy runs need no backtracking because the classes involved are disjoint;
the closing quote may differ from the opening one, exactly as in the regex.
Returns key, captured value, and the remainder after the match. -/
def tryQuotedAt (l : List Char) : Option (List Char × List Char × List Char) :=
  let key := l.takeWhile isWordChar
  if key.isEmpty then none
  else
    match (l.drop key.length).dropWhile isWs with
    | '=' :: r2 =>
      match r2.dropWhile isWs with
      | q :: r4 =>
        if q = dquote || q = squote then
          let v := r4.takeWhile (fun c => !(c = dquote) && !(c = squote))
          if v.isEmpty then none
          else
            match r4.drop v.length with
            | c :: rest => if c = dquote || c = squote then some (key, v, rest) else none
            | [] => none
        else none
      | [] => none
    | _ => none

/-- `(\w+)\s*=\s*([^\s,]+)` anchored at the current position. -/
def tryUnquotedAt (l : List Char) : Option (List Char × List Char × List Char) :=
  let key := l.takeWhile isWordChar
  if key.isEmpty then none
  else
    match (l.drop key.length).dropWhile isWs with
    | '=' :: r2 =>
      let r3 := r2.dropWhile isWs
      let v := r3.takeWhile (fun c => !isWs c && !(c = ','))
      if v.isEmpty then none else some (key, v, r3.drop v.length)
    | _ => none

/-- A global (`g`-flag) scan: repeatedly find the next match and continue after
it; on failure at a position advance one character.  Fuel bounds the number of
steps (every step consumes at least one character). -/
def scanGlobal (tryAt : List Char → Option (List Char × List Char × List Char)) :
    Nat → List Char → List (List Char × List Char)
  | 0, _ => []
  | _, [] => []
  | Nat.succ fuel, c :: rest =>
    match tryAt (c :: rest) with
    | some kvr => (kvr.1, kvr.2.1) :: scanGlobal tryAt fuel kvr.2.2
    | none => scanGlobal tryAt fuel rest

/-- All matches of the quoted `key="value"` pattern, left to right. -/
def scanQuoted (q : List Char) : List (List Char × List Char) :=
  scanGlobal tryQuotedAt q.length q

/-- All matches of the unquoted `key=value` pattern, left to right. -/
def scanUnquoted (q : List Char) : List (List Char × List Char) :=
  scanGlobal tryUnquotedAt q.length q

/-- The fixed natural-language pattern table of `extractRequestBodyFields`:
alternation of trigger words, a value matcher for the capture group, and the
canonical field name it fills. -/
def nlPatterns : List (List String × (List Char → Option (List Char)) × String) :=
  [(["name", "customer"], noWsCommaValue, "customer_name"),
   (["email"], emailValue, "customer_email"),
   (["phone"], noWsValue, "customer_phone"),
   (["garage", "shop"], noWsCommaValue, "garage_name"),
   (["service", "type"], noWsCommaValue, "service_type"),
   (["date"], dateAt, "appointment_date"),
   (["time", "slot"], noWsValue, "appointment_time_slot"),
   (["car", "vehicle"], noWsCommaValue, "car_make"),
   (["model"], noWsCommaValue, "car_model"),
   (["year"], year4Value, "car_year"),
   (["notes", "note"], noCommaValue, "notes")]

/-- `extractRequestBodyFields(query, endpoint)`: structured `key="value"` then
`key=value` extraction (unquoted keys only fill gaps); if neither pattern
matched at all, the natural-language table is applied instead.  The endpoint
argument is unused by the source function as well. -/
def extractRequestBodyFields (query : List Char) (_endpoint : MCPEndpoint) :
    List (String × JsVal) :=
  let bf1 := (scanQuoted query).foldl
    (fun acc kv => setKey acc (String.mk kv.1) (JsVal.str (String.mk kv.2))) []
  let bf2 := (scanUnquoted query).foldl
    (fun acc kv =>
      if hasKey acc (String.mk kv.1) then acc
      else setKey acc (String.mk kv.1) (JsVal.str (String.mk kv.2))) bf1
  if bf2.isEmpty then
    nlPatterns.foldl
      (fun acc pat =>
        match findAltValue pat.2.1 pat.1 query with
        | some v => setKey acc pat.2.2 (JsVal.str (String.mk v))
        | none => acc) []
  else bf2

/-! ## Fallback scoring (`matchWithFallback`, steps 1 and 2) -/

/-- The verb keyword sets, in the fixed priority order of the source object
(JS object insertion order: GET, POST, PUT, DELETE, PATCH). -/
def methodKeywords : List (String × List String) :=
  [("GET", ["get", "fetch", "retrieve", "list", "show", "find", "search"]),
   ("POST", ["create", "add", "post", "new", "insert"]),
   ("PUT", ["update", "modify", "edit", "change", "replace"]),
   ("DELETE", ["delete", "remove", "destroy"]),
   ("PATCH", ["patch", "partial update"])]

/-- Method guess: the first keyword set with a keyword occurring as a substring
of the lower-cased query wins; default GET. -/
def detectMethod (queryLower : List Char) : String :=
  match methodKeywords.find? (fun mk => mk.2.any (fun kw => strIncludes queryLower kw.data)) with
  | some mk => mk.1
  | none => "GET"

/-- `endpoint.path.split('/').filter(part => part && !part.startsWith('{'))`. -/
def pathKeywords (e : MCPEndpoint) : List (List Char) :=
  (splitOnChar '/' e.path.data).filter
    (fun part => !part.isEmpty && !charsPrefix ['\x7b'] part)

/-- Description contribution to the score: +1 per word longer than 3 characters
occurring as a substring of the lower-cased query (empty or falsy description
contributes nothing). -/
def descScore (queryLower : List Char) (e : MCPEndpoint) : Nat :=
  match e.description with
  | none => 0
  | some d =>
    if d = "" then 0
    else (splitWsPieces (d.data.map Char.toLower)).countP
      (fun w => strIncludes queryLower w && w.length > 3)

/-- Endpoint score: 5 for a method match, 3 per matching non-placeholder path
segment, plus the description score. -/
def scoreEndpoint (queryLower : List Char) (matchedMethod : String)
    (e : MCPEndpoint) : Nat :=
  (if e.method = matchedMethod then 5 else 0)
  + 3 * (pathKeywords e).countP (fun kw => strIncludes queryLower (kw.map Char.toLower))
  + descScore queryLower e

/-- The best-match fold: keep the strictly highest score (ties keep the earlier
endpoint); endpoints that never beat the initial score 0 leave `none`. -/
def pickBest (queryLower : List Char) (matchedMethod : String)
    (endpoints : List MCPEndpoint) : Nat × Option MCPEndpoint :=
  endpoints.foldl
    (fun acc e =>
      let s := scoreEndpoint queryLower matchedMethod e
      if acc.1 < s then (s, some e) else acc)
    (0, none)

/-- Score and best match for a manifest and query. -/
def fallbackBest (m : MCPManifest) (q : String) : Nat × Option MCPEndpoint :=
  pickBest (lowerData q) (detectMethod (lowerData q)) m.endpoints

/-- `bestMatch = bestMatch || manifest.endpoints[0]`: the zero-score default to
the first catalog entry.  `none` means the catalog itself is empty, in which
case the source dereferences `undefined` and throws. -/
def defaultedBest (m : MCPManifest) (q : String) : Option MCPEndpoint :=
  match (fallbackBest m q).2 with
  | some e => some e
  | none => m.endpoints.head?

/-! ## Missing-information analysis -/

/-- Names of the declared parameters marked required. -/
def requiredParamNames (e : MCPEndpoint) : List String :=
  match e.parameters with
  | none => []
  | some ps => (ps.filter (fun p => p.required)).map (fun p => p.name)

/-- The endpoint's `requestBody.requiredFields` (empty when absent). -/
def requiredBodyFields (e : MCPEndpoint) : List String :=
  match e.requestBody with
  | none => []
  | some rb =>
    match rb.requiredFields with
    | none => []
    | some fs => fs

/-- `analyzeMissingRequestBodyFields`: required body fields not among the
extracted body fields. -/
def analyzeMissingRequestBodyFields (e : MCPEndpoint)
    (extractedFields : List (String × JsVal)) : List String :=
  (requiredBodyFields e).filter (fun f => !hasKey extractedFields f)

/-- `generateParameterSuggestions`: one contextual suggestion per missing
declared parameter (names not found among the declared parameters are
skipped). -/
def generateParameterSuggestions (missingParams : List String) (e : MCPEndpoint) :
    List String :=
  missingParams.filterMap (fun paramName =>
    match (e.parameters.getD []).find? (fun p => p.name = paramName) with
    | none => none
    | some param => some (
        if strContains (lowerStr paramName) "id" then
          "Please provide a " ++ paramName ++ " (e.g., \"with ID 123\")"
        else if strContains (lowerStr paramName) "email" then
          "Please provide an email address (e.g., \"for user@example.com\")"
        else if strContains (lowerStr paramName) "name" then
          "Please provide a name (e.g., \"for John Doe\")"
        else if strContains (lowerStr paramName) "date" then
          "Please provide a date (e.g., \"for 2025-01-15\")"
        else if param.type = "integer" then
          "Please provide a number for " ++ paramName ++ " (e.g., \"limit 10\")"
        else if param.type = "string" then
          "Please provide a value for " ++ paramName
        else
          "Please provide a value for " ++ paramName))

/-- `generateRequestBodySuggestions`: fixed suggestions for the known
booking-domain fields, generic text otherwise. -/
def generateRequestBodySuggestions (missingFields : List String)
    (_e : MCPEndpoint) : List String :=
  missingFields.map (fun field =>
    if field = "garage_id" then
      "Please specify the garage ID (e.g., \"for garage way/123456\")"
    else if field = "customer_name" then
      "Please provide the customer name (e.g., \"for John Doe\")"
    else if field = "service_type" then
      "Please specify the service type (e.g., \"for oil change\" or \"for battery replacement\")"
    else if field = "appointment_date" then
      "Please provide the appointment date (e.g., \"for 2025-01-15\")"
    else if field = "customer_email" then
      "Please provide the customer email (e.g., \"for john@example.com\")"
    else if field = "customer_phone" then
      "Please provide the customer phone (e.g., \"phone +1234567890\")"
    else
      "Please provide a value for " ++ field)

/-- `getBaseQueryForEndpoint`: verb from the method plus the non-placeholder
path segments. -/
def getBaseQueryForEndpoint (e : MCPEndpoint) : String :=
  let method := lowerStr e.method
  let pathParts := (splitOnChar '/' e.path.data).filter
    (fun part => !part.isEmpty && !charsPrefix ['\x7b'] part)
  let joined := String.intercalate " " (pathParts.map String.mk)
  if method = "get" then "Get " ++ joined
  else if method = "post" then "Create " ++ joined
  else if method = "put" then "Update " ++ joined
  else if method = "delete" then "Delete " ++ joined
  else method ++ " " ++ joined

/-- `generateExampleQuery`: the base query followed by one example fragment per
missing field. -/
def generateExampleQuery (e : MCPEndpoint) (missingParams : List String) : String :=
  let paramExamples := missingParams.map (fun paramName =>
    let param := (e.parameters.getD []).find? (fun p => p.name = paramName)
    if strContains (lowerStr paramName) "id" then "with ID 123"
    else if strContains (lowerStr paramName) "email" then "for user@example.com"
    else if strContains (lowerStr paramName) "name" then "for John Doe"
    else if strContains (lowerStr paramName) "date" then "for 2025-01-15"
    else if (param.map (fun p => p.type)).getD "" = "integer" then "limit 10"
    else "with " ++ paramName ++ " value")
  getBaseQueryForEndpoint e ++ " " ++ String.intercalate " " paramExamples

/-- `analyzeMissingInformation`: required declared parameters absent from the
extracted params, plus — for mutating methods — required body fields absent
from the re-extracted body fields; `none` when nothing is missing. -/
def analyzeMissingInformation (query : List Char) (e : MCPEndpoint)
    (extractedParams : List (String × JsVal)) : Option MissingInfo :=
  let missingRequired := (requiredParamNames e).filter
    (fun p => !hasKey extractedParams p)
  let bodyData : List String × List String × Option (List String) :=
    if isMutating e.method then
      let bodyFields := extractRequestBodyFields query e
      let missingBodyFields := analyzeMissingRequestBodyFields e bodyFields
      if 0 < missingBodyFields.length then
        (missingBodyFields, generateRequestBodySuggestions missingBodyFields e,
         some missingBodyFields)
      else ([], [], none)
    else ([], [], none)
  let missingAll := missingRequired ++ bodyData.1
  if missingAll.isEmpty then none
  else some
    { requiredParams := missingAll
      suggestions := generateParameterSuggestions missingRequired e ++ bodyData.2.1
      exampleQuery := generateExampleQuery e missingAll
      requestBodyFields := bodyData.2.2 }

/-! ## Result construction -/

/-- `generateFallbackSummary`: verb from method plus last non-placeholder path
segment. -/
def generateFallbackSummary (endpoint : String) (method : String) : String :=
  let action :=
    if method = "GET" then "Retrieving"
    else if method = "POST" then "Creating"
    else if method = "PUT" then "Updating"
    else if method = "DELETE" then "Deleting"
    else "Processing"
  let parts := (splitOnChar '/' endpoint.data).filter
    (fun part => !part.isEmpty && !charsPrefix ['\x7b'] part)
  let resource := ((parts.map String.mk).getLast?).getD "resource"
  action ++ " " ++ resource ++ " based on your request"

/-- `buildParameterDetails`: per declared parameter, its extracted value, an
explicit or inferred location, and the extraction source. -/
def buildParameterDetails (extractedParams : List (String × JsVal))
    (endpoint : Option MCPEndpoint) : List ParameterDetail :=
  match endpoint with
  | none => []
  | some e =>
    match e.parameters with
    | none => []
    | some ps => ps.map (fun param =>
        let hasValue := hasKey extractedParams param.name
        let location :=
          match param.location with
          | some loc => some loc
          | none =>
            if strContains e.path ("\x7b" ++ param.name ++ "\x7d") then some "path"
            else if isMutating e.method then some "body"
            else some "query"
        { name := param.name
          value := lookupKey extractedParams param.name
          description := param.description
          type := param.type
          required := param.required
          location := location
          source := if hasValue then "extracted"
            else if param.required then "missing" else "optional" })

/-- `generateGuidance`: the composite human-readable guidance text. -/
def generateGuidance (mi : MissingInfo) (e : MCPEndpoint) : String :=
  let bullets := fun (items : List String) =>
    String.intercalate "\n" (items.map (fun s => "• " ++ s))
  let g0 := "I found the right endpoint (" ++ e.method ++ " " ++ e.path
    ++ "), but I need more information:\n\n"
  let g1 :=
    match mi.requestBodyFields with
    | some fields =>
      if 0 < fields.length then
        g0 ++ "**Missing required fields for " ++ e.method ++ " request:**\n"
          ++ bullets fields ++ "\n\n"
      else g0
    | none => g0
  let g2 :=
    if 0 < mi.requiredParams.length then
      g1 ++ "**Missing required parameters:**\n" ++ bullets mi.requiredParams ++ "\n\n"
    else g1
  g2 ++ "**Suggestions:**\n" ++ bullets mi.suggestions
    ++ "\n\n**Example query:**\n\"" ++ mi.exampleQuery ++ "\""

/-- The `QueryMatchResult` built by the fallback path, given the pre-default
best match (used for declared-parameter extraction) and the defaulted best
match. -/
def buildFallbackResult (m : MCPManifest) (query : String) (score : Nat)
    (preMatch : Option MCPEndpoint) (bestMatch : MCPEndpoint) : MatchResult :=
  let preParams := extractParametersFromQuery query.data preMatch
  let params :=
    if isMutating bestMatch.method then
      objAssign preParams (extractRequestBodyFields query.data bestMatch)
    else preParams
  let missingInfo := analyzeMissingInformation query.data bestMatch params
  { endpoint := bestMatch.path
    method := bestMatch.method
    params := some params
    confidence := some ((score : ℚ) / 10)
    reasoning := some ("Matched based on keywords (score: " ++ toString score ++ ")")
    summary := generateFallbackSummary bestMatch.path bestMatch.method
    endpointDescription := bestMatch.description
    parameterDetails := some (buildParameterDetails params (some bestMatch))
    expectedResponse := some "API response will be returned after execution"
    apiName := some m.name
    missingInfo := missingInfo
    guidance := missingInfo.map (fun mi => generateGuidance mi bestMatch) }

/-- `matchWithFallback`: the deterministic fallback matcher.  An empty catalog
makes the source dereference `undefined` (`bestMatch.method`), which throws;
that hard failure is the `Except.error` case. -/
def matchWithFallback (m : MCPManifest) (query : String) :
    Except String MatchResult :=
  match defaultedBest m query with
  | none => Except.error "TypeError: Cannot read properties of undefined (reading method)"
  | some bestMatch =>
    Except.ok (buildFallbackResult m query (fallbackBest m query).1
      (fallbackBest m query).2 bestMatch)

/-! ## Semantic path (`matchWithOpenAI`, `enrichResult`, `matchQuery`) -/

/-- The structured JSON the language model returns on success. -/
structure LlmResult where
  endpoint : String
  method : String
  params : Option (List (String × JsVal))
  confidence : Option ℚ
  reasoning : Option String
  summary : Option String
  expectedResponse : Option String
  missingInfo : Option MissingInfo
deriving DecidableEq

/-- Outcome of the single model call: a transport/API failure (network error,
timeout, non-2xx), or a response body whose JSON parse yields `none` (malformed
JSON) or a structured result. -/
inductive SemanticOutcome where
  | failure : SemanticOutcome
  | response : Option LlmResult → SemanticOutcome
deriving DecidableEq

/-- `enrichResult`: merge the model result with manifest data; `||`-style
defaults replace absent or empty summary and expected-response strings. -/
def enrichResult (m : MCPManifest) (llm : LlmResult) (_originalQuery : String) :
    MatchResult :=
  let matched := m.endpoints.find?
    (fun ep => ep.path = llm.endpoint && ep.method = llm.method)
  { endpoint := llm.endpoint
    method := llm.method
    params := llm.params
    confidence := llm.confidence
    reasoning := llm.reasoning
    summary :=
      match llm.summary with
      | some s => if s = "" then generateFallbackSummary llm.endpoint llm.method else s
      | none => generateFallbackSummary llm.endpoint llm.method
    endpointDescription := matched.bind (fun e => e.description)
    parameterDetails := some (buildParameterDetails (llm.params.getD []) matched)
    expectedResponse :=
      match llm.expectedResponse with
      | some s => if s = "" then some "API response will be returned after execution" else some s
      | none => some "API response will be returned after execution"
    apiName := some m.name
    missingInfo := llm.missingInfo
    guidance := none }

/-- `matchWithOpenAI`: any transport failure or JSON-parse failure is caught
and answered by the fallback matcher; a parsed result is enriched. -/
def matchWithOpenAI (m : MCPManifest) (outcome : SemanticOutcome) (query : String) :
    Except String MatchResult :=
  match outcome with
  | SemanticOutcome.failure => matchWithFallback m query
  | SemanticOutcome.response none => matchWithFallback m query
  | SemanticOutcome.response (some llm) => Except.ok (enrichResult m llm query)

/-- `matchQuery`: the OpenAI path when a client is configured, else the
fallback; its own try/catch only rethrows, so the outcome is unchanged. -/
def matchQuery (m : MCPManifest) (openaiConfigured : Bool)
    (outcome : SemanticOutcome) (query : String) : Except String MatchResult :=
  if openaiConfigured then matchWithOpenAI m outcome query
  else matchWithFallback m query

/-! ## Type inference helper (`inferTypeFromName`, manifest generator) -/

/-- Whether the spec-provided hint description mentions an array or list
(`prop.description?.toLowerCase().includes('array') || ...includes('list')`). -/
def descMentionsArray (d : Option String) : Bool :=
  match d with
  | none => false
  | some s => strContains (lowerStr s) "array" || strContains (lowerStr s) "list"

/-- `inferTypeFromName(fieldName, prop)`: infer a JSON type from naming
conventions when the API spec omits the type; first matching rule wins,
defaulting to string. -/
def inferTypeFromName (fieldName : String) (propDescription : Option String) :
    String :=
  let nameLower := lowerStr fieldName
  if strEndsWith nameLower "_id" || nameLower = "id" || strStartsWith nameLower "id_" then
    "integer"
  else if strContains nameLower "count" || strContains nameLower "quantity"
      || strContains nameLower "number" || strContains nameLower "amount" then
    "integer"
  else if strContains nameLower "price" || strContains nameLower "cost"
      || strContains nameLower "rate" || strContains nameLower "fee" then
    "number"
  else if strStartsWith nameLower "is_" || strStartsWith nameLower "has_"
      || strStartsWith nameLower "can_" || strStartsWith nameLower "should_"
      || strContains nameLower "enabled" || strContains nameLower "active" then
    "boolean"
  else if strContains nameLower "date" && !strContains nameLower "update"
      && !strContains nameLower "time" then
    "string"
  else if strContains nameLower "timestamp" || strContains nameLower "datetime"
      || (strContains nameLower "created" && strContains nameLower "at")
      || (strContains nameLower "updated" && strContains nameLower "at") then
    "string"
  else if strContains nameLower "email" then
    "string"
  else if (strEndsWith nameLower "s" || strContains nameLower "list"
      || strContains nameLower "array") && descMentionsArray propDescription then
    "array"
  else
    "string"

/-- Modelled from the spec: the nine naming rules of §4.1 as an ordered list of
predicate/result pairs, used to state that the code checks them first-match-
first in the spec's priority order (rule 9, the default, is the base case of
`specFirstMatch`). -/
def specTypeRules : List ((String → Option String → Bool) × String) :=
  [(fun n _ => strEndsWith (lowerStr n) "_id" || lowerStr n = "id"
      || strStartsWith (lowerStr n) "id_", "integer"),
   (fun n _ => strContains (lowerStr n) "count" || strContains (lowerStr n) "quantity"
      || strContains (lowerStr n) "number" || strContains (lowerStr n) "amount", "integer"),
   (fun n _ => strContains (lowerStr n) "price" || strContains (lowerStr n) "cost"
      || strContains (lowerStr n) "rate" || strContains (lowerStr n) "fee", "number"),
   (fun n _ => strStartsWith (lowerStr n) "is_" || strStartsWith (lowerStr n) "has_"
      || strStartsWith (lowerStr n) "can_" || strStartsWith (lowerStr n) "should_"
      || strContains (lowerStr n) "enabled" || strContains (lowerStr n) "active", "boolean"),
   (fun n _ => strContains (lowerStr n) "date" && !strContains (lowerStr n) "update"
      && !strContains (lowerStr n) "time", "string"),
   (fun n _ => strContains (lowerStr n) "timestamp" || strContains (lowerStr n) "datetime"
      || (strContains (lowerStr n) "created" && strContains (lowerStr n) "at")
      || (strContains (lowerStr n) "updated" && strContains (lowerStr n) "at"), "string"),
   (fun n _ => strContains (lowerStr n) "email", "string"),
   (fun n d => (strEndsWith (lowerStr n) "s" || strContains (lowerStr n) "list"
      || strContains (lowerStr n) "array") && descMentionsArray d, "array")]

/-- First-match evaluation of an ordered rule list, defaulting to string. -/
def specFirstMatch : List ((String → Option String → Bool) × String) →
    String → Option String → String
  | [], _, _ => "string"
  | r :: rs, n, d => if r.1 n d then r.2 else specFirstMatch rs n d

/-! ## Concrete catalogs used to evaluate the engine at specific inputs -/

/-- A manifest around a list of endpoints, with neutral API metadata. -/
def mkManifest (endpoints : List MCPEndpoint) : MCPManifest :=
  { version := "1.0.0", name := "API Server",
    description := "MCP-enabled API Server", endpoints := endpoints }

/-- A declared query parameter without description. -/
def mkParam (name : String) (type : String) (required : Bool) : MCPParameter :=
  { name := name, type := type, required := required,
    description := none, location := some "query" }

/-- An endpoint without request body. -/
def mkEndpoint (path : String) (method : String)
    (params : Option (List MCPParameter)) : MCPEndpoint :=
  { path := path, method := method, description := none,
    parameters := params, requestBody := none }

/-- `POST /booking` declaring `garage_id : integer` and `price : number`. -/
def bookingEndpoint : MCPEndpoint :=
  mkEndpoint "/booking" "POST"
    (some [mkParam "garage_id" "integer" false, mkParam "price" "number" false])

/-- Single-endpoint catalog for the type-fidelity evaluation. -/
def bookingCatalog : MCPManifest := mkManifest [bookingEndpoint]

/-- `GET /pets` with the optional integer parameter `limit`. -/
def petsGetEndpoint : MCPEndpoint :=
  mkEndpoint "/pets" "GET" (some [mkParam "limit" "integer" false])

/-- `POST /pets` with body properties `name : string`, `age : integer` and
`requiredFields = ["name"]`. -/
def petsPostEndpoint : MCPEndpoint :=
  { path := "/pets", method := "POST", description := none, parameters := none,
    requestBody := some
      { required := some true
        properties := some
          [("name", { type := "string", description := none, required := none }),
           ("age", { type := "integer", description := none, required := none })]
        requiredFields := some ["name"] } }

/-- The two-endpoint pets catalog of the scenario. -/
def petsCatalog : MCPManifest := mkManifest [petsGetEndpoint, petsPostEndpoint]

/-- `GET /users/accounts`: two matching path segments plus a method match give
score 11. -/
def accountsCatalog : MCPManifest :=
  mkManifest [mkEndpoint "/users/accounts" "GET" none]

/-- `GET /calendar` declaring a *number*-typed parameter whose name contains
"date". -/
def numberDateEndpoint : MCPEndpoint :=
  mkEndpoint "/calendar" "GET" (some [mkParam "start_date" "number" false])

/-- Catalog around `numberDateEndpoint`. -/
def numberDateCatalog : MCPManifest := mkManifest [numberDateEndpoint]

/-- `GET /users`. -/
def usersGetEndpoint : MCPEndpoint := mkEndpoint "/users" "GET" none

/-- `POST /users`. -/
def usersPostEndpoint : MCPEndpoint := mkEndpoint "/users" "POST" none

/-- Catalog with GET before POST. -/
def usersCatalogGetFirst : MCPManifest :=
  mkManifest [usersGetEndpoint, usersPostEndpoint]

/-- Catalog with POST before GET. -/
def usersCatalogPostFirst : MCPManifest :=
  mkManifest [usersPostEndpoint, usersGetEndpoint]

/-- `POST /pets` declaring a required integer parameter `limit` and no request
body: a zero-score default target whose required parameter is nevertheless
captured by the structured body extraction. -/
def limitPostEndpoint : MCPEndpoint :=
  mkEndpoint "/pets" "POST" (some [mkParam "limit" "integer" true])

/-- Catalog around `limitPostEndpoint`. -/
def limitPostCatalog : MCPManifest := mkManifest [limitPostEndpoint]

/-- `DELETE /secret` with a required string parameter `token`: a zero-score,
non-mutating default target. -/
def secretDeleteEndpoint : MCPEndpoint :=
  mkEndpoint "/secret" "DELETE" (some [mkParam "token" "string" true])

/-- Catalog around `secretDeleteEndpoint`. -/
def secretDeleteCatalog : MCPManifest := mkManifest [secretDeleteEndpoint]

/-- `POST /book` whose request body requires the fields `a`, `b`, `c`. -/
def abcEndpoint : MCPEndpoint :=
  { path := "/book", method := "POST", description := none, parameters := none,
    requestBody := some
      { required := some true
        properties := some
          [("a", { type := "string", description := none, required := none }),
           ("b", { type := "string", description := none, required := none }),
           ("c", { type := "string", description := none, required := none })]
        requiredFields := some ["a", "b", "c"] } }

/-- The empty catalog. -/
def emptyCatalog : MCPManifest := mkManifest []

/-- `GET` endpoint declaring a *string*-typed parameter whose name contains
"date", for the date-literal extraction witness. -/
def stringDateEndpoint : MCPEndpoint :=
  mkEndpoint "/calendar" "GET" (some [mkParam "start_date" "string" false])

/-- A structured result the language model could return for `"list users"`:
it names an endpoint no catalog needs to contain. -/
def fabricatedLlm : LlmResult :=
  { endpoint := "/users", method := "GET", params := some [], confidence := none,
    reasoning := none, summary := some "Listing users", expectedResponse := none,
    missingInfo := none }

/-! ## Helper lemmas -/

theorem lookupKey_setKey_self (m : List (String × JsVal)) (k : String) (v : JsVal) :
    lookupKey (setKey m k v) k = some v := by
  induction m with
  | nil => simp [setKey, lookupKey]
  | cons p rest ih =>
    by_cases h : p.1 = k
    · simp [setKey, h, lookupKey]
    · simp [setKey, h, lookupKey, ih]

theorem lookupKey_setKey_other (m : List (String × JsVal)) (k k' : String)
    (v : JsVal) (h : k' ≠ k) : lookupKey (setKey m k v) k' = lookupKey m k' := by
  have hkk : ¬(k = k') := fun hh => h hh.symm
  induction m with
  | nil => simp [setKey, lookupKey, hkk]
  | cons p rest ih =>
    by_cases hp : p.1 = k
    · simp [setKey, lookupKey, hp, hkk]
    · simp [setKey, lookupKey, hp, ih]

theorem exceptOk_of_isOk {α : Type} (x : Except String α) (h : x.isOk = true) :
    ∃ r, x = Except.ok r := by
  cases x with
  | ok r => exact ⟨r, rfl⟩
  | error e => exact Bool.noConfusion h

theorem pickBest_zero (queryLower : List Char) (matchedMethod : String)
    (endpoints : List MCPEndpoint)
    (h : ∀ e ∈ endpoints, scoreEndpoint queryLower matchedMethod e = 0) :
    pickBest queryLower matchedMethod endpoints = (0, none) := by
  have aux : ∀ (l : List MCPEndpoint),
      (∀ e ∈ l, scoreEndpoint queryLower matchedMethod e = 0) →
      l.foldl (fun acc e =>
        let s := scoreEndpoint queryLower matchedMethod e
        if acc.1 < s then (s, some e) else acc) ((0 : Nat), (none : Option MCPEndpoint))
        = (0, none) := by
    intro l
    induction l with
    | nil => intro _; rfl
    | cons e rest ih =>
      intro hl
      have he : scoreEndpoint queryLower matchedMethod e = 0 := hl e (by simp)
      have hrest : ∀ x ∈ rest, scoreEndpoint queryLower matchedMethod x = 0 :=
        fun x hx => hl x (by simp [hx])
      simpa [List.foldl, he] using ih hrest
  exact aux endpoints h

theorem defaultedBest_none (m : MCPManifest) (q : String)
    (h : defaultedBest m q = none) : m.endpoints = [] := by
  unfold defaultedBest at h
  cases hfb : (fallbackBest m q).2 with
  | some e => rw [hfb] at h; exact Option.noConfusion h
  | none =>
    rw [hfb] at h
    cases he : m.endpoints with
    | nil => rfl
    | cons a l => rw [he] at h; exact Option.noConfusion h

theorem matchWithFallback_ok (m : MCPManifest) (q : String)
    (h : m.endpoints ≠ []) : ∃ r, matchWithFallback m q = Except.ok r := by
  unfold matchWithFallback
  cases hdb : defaultedBest m q with
  | none => exact absurd (defaultedBest_none m q hdb) h
  | some bm => exact ⟨_, rfl⟩

theorem matchWithFallback_confidence (m : MCPManifest) (q : String) (r : MatchResult)
    (h : matchWithFallback m q = Except.ok r) :
    r.confidence = some (((fallbackBest m q).1 : ℚ) / 10) := by
  unfold matchWithFallback at h
  cases hdb : defaultedBest m q with
  | none => rw [hdb] at h; exact Except.noConfusion h
  | some bm =>
    rw [hdb] at h
    have := Except.ok.inj h
    rw [← this]
    rfl

theorem analyzeMissing_requiredMem (query : List Char) (e : MCPEndpoint)
    (params : List (String × JsVal)) (name : String)
    (hmem : name ∈ requiredParamNames e) (habs : hasKey params name = false) :
    ∃ mi, analyzeMissingInformation query e params = some mi ∧
      name ∈ mi.requiredParams := by
  unfold analyzeMissingInformation
  have hname : name ∈ (requiredParamNames e).filter (fun p => !hasKey params p) :=
    List.mem_filter.2 ⟨hmem, by simp [habs]⟩
  rcases hsplit : (requiredParamNames e).filter (fun p => !hasKey params p) with _ | ⟨x, xs⟩
  · rw [hsplit] at hname; exact absurd hname (List.not_mem_nil name)
  · rw [hsplit] at hname
    refine ⟨_, rfl, ?_⟩
    simp only [List.isEmpty, List.cons_append]
    exact List.mem_append_left _ hname

theorem specFirstMatch_mem (rs : List ((String → Option String → Bool) × String))
    (n : String) (d : Option String) :
    specFirstMatch rs n d ∈ "string" :: rs.map (fun r => r.2) := by
  induction rs with
  | nil => simp [specFirstMatch]
  | cons r rest ih =>
    simp only [specFirstMatch]
    by_cases h : r.1 n d
    · simp [h]
    · simp only [h, if_false, List.map_cons]
      rcases List.mem_cons.1 ih with h1 | h1
      · simp [h1]
      · simp [List.mem_cons.2 (Or.inr (List.mem_cons.2 (Or.inr h1)))]

/-! ## Claim theorems -/

/-- C1 (counterexample): the query `"create booking garage_id=123 price=99.99"`
against an endpoint declaring `garage_id : integer` and `price : number` yields
the *strings* `"123"` and `"99.99"` in `params`, not numbers — refuting the
claim that integer/number/boolean-typed parameters are always stored with
their JSON type. -/
theorem C1_counterexample :
    (matchWithFallback bookingCatalog "create booking garage_id=123 price=99.99").toOption.map
        (fun r => r.params)
      = some (some [("garage_id", JsVal.str "123"), ("price", JsVal.str "99.99")]) := by
  decide

/-- C1 (amended): in fallback extraction only the declared-parameter
`name[:\s]+value` path coerces, and only for declared type `integer` (via
`parseInt`, so the stored value is an integer or `NaN`, never a string);
values of declared type `number` or `boolean`, and all request-body extracted
fields, are stored as strings. -/
theorem C1_integerCoercion (query : List Char) (params : List (String × JsVal))
    (p : MCPParameter) (v : List Char)
    (htype : p.type = "integer") (hmatch : findNameValue p.name query = some v) :
    (∃ n, lookupKey (processParam query params p) p.name = some (JsVal.int n)) ∨
      lookupKey (processParam query params p) p.name = some JsVal.nan := by
  have hcond : (p.type = "string" && strContains p.name "date") = false := by
    rw [htype]
    simp [show ¬(("integer" : String) = "string") from by decide]
  unfold processParam
  rw [hmatch, hcond]
  simp only [Bool.false_eq_true, if_false]
  rw [htype]
  unfold coerceParamValue
  cases hpi : parseIntJs v with
  | some n => exact Or.inl ⟨n, by simp [hpi, lookupKey_setKey_self]⟩
  | none => exact Or.inr (by simp [hpi, lookupKey_setKey_self])

/-- C1 (witness): the integer-typed parameter `limit` extracted from
`"get pets limit 10"` is stored as a number or `NaN`, never as a string. -/
theorem C1_witness :
    (∃ n, lookupKey (processParam ("get pets limit 10".data) []
        (mkParam "limit" "integer" false)) "limit" = some (JsVal.int n)) ∨
      lookupKey (processParam ("get pets limit 10".data) []
        (mkParam "limit" "integer" false)) "limit" = some JsVal.nan :=
  C1_integerCoercion ("get pets limit 10".data) [] (mkParam "limit" "integer" false)
    ("10".data) (by decide) (by decide)

/-- C2: a semantic-backend transport failure or a response body whose JSON
parse fails makes `matchWithOpenAI` (and hence `matchQuery`) return exactly
the deterministic fallback's fully-formed result; the semantic failure is
never surfaced as an error (the only hard error, the empty catalog, is the
fallback's own). -/
theorem C2_degradation (m : MCPManifest) (q : String) :
    matchWithOpenAI m SemanticOutcome.failure q = matchWithFallback m q ∧
    matchWithOpenAI m (SemanticOutcome.response none) q = matchWithFallback m q ∧
    (m.endpoints ≠ [] →
      ∃ r, matchQuery m true SemanticOutcome.failure q = Except.ok r ∧
        matchQuery m true (SemanticOutcome.response none) q = Except.ok r ∧
        matchWithFallback m q = Except.ok r) := by
  refine ⟨rfl, rfl, fun h => ?_⟩
  obtain ⟨r, hr⟩ := matchWithFallback_ok m q h
  exact ⟨r, by simpa [matchQuery, matchWithOpenAI] using hr,
    by simpa [matchQuery, matchWithOpenAI] using hr, hr⟩

/-- C2 (witness): against the pets catalog, both failure modes of the semantic
call produce the fallback's `MatchResult`. -/
theorem C2_witness :
    ∃ r, matchQuery petsCatalog true SemanticOutcome.failure "list pets" = Except.ok r ∧
      matchQuery petsCatalog true (SemanticOutcome.response none) "list pets" = Except.ok r ∧
      matchWithFallback petsCatalog "list pets" = Except.ok r :=
  (C2_degradation petsCatalog "list pets").2.2 (by decide)

/-- C4 (counterexample): for the scenario catalog and the query
`"create a pet named Max age=3"`, the fallback result does *not* contain the
field `name` in `params` and `missingInfo` is present — refuting the expected
`params = {name: "Max", age: 3}` with `missingInfo` absent. -/
theorem C4_counterexample :
    (matchWithFallback petsCatalog "create a pet named Max age=3").toOption.map
        (fun r => (r.params.map (fun ps => hasKey ps "name"), r.missingInfo.isSome))
      = some (some false, true) := by
  decide

/-- C4 (amended): the same query yields endpoint `/pets`, method `POST`,
`params = {age: "3"}` (a string, captured by the unquoted `key=value` pattern;
`name` is not extracted because the natural-language patterns only run when no
structured pattern matched), and `missingInfo` present listing `name`. -/
theorem C4_actualResult :
    (matchWithFallback petsCatalog "create a pet named Max age=3").toOption.map
        (fun r => (r.endpoint, r.method, r.params))
      = some ("/pets", "POST", some [("age", JsVal.str "3")]) ∧
    (matchWithFallback petsCatalog "create a pet named Max age=3").toOption.map
        (fun r => r.missingInfo.map (fun mi => (mi.requiredParams, mi.requestBodyFields)))
      = some (some (["name"], some ["name"])) := by
  exact ⟨by decide, by decide⟩

/-- C7 (counterexample): a declared parameter of type `number` whose name
contains "date" is *not* filled from a `YYYY-MM-DD` literal — the date branch
requires declared type `string` — refuting "whatever its declared type". -/
theorem C7_counterexample :
    strContains "start_date" "date" = true ∧
    findDate ("2025-01-15".data) = some ("2025-01-15".data) ∧
    extractParametersFromQuery ("2025-01-15".data) (some numberDateEndpoint) = [] ∧
    (matchWithFallback numberDateCatalog "2025-01-15").toOption.map (fun r => r.params)
      = some (some []) := by
  decide

/-- C8: `"list all users"` maps to GET (keyword sets tried in the fixed order
GET, POST, PUT, DELETE, PATCH, first match wins — also shown on a query
containing both a GET and a POST keyword), `GET /users` scores 8 against
`POST /users`'s 3, and the fallback selects `GET /users` in either catalog
order. -/
theorem C8_methodPriority :
    detectMethod (lowerData "list all users") = "GET" ∧
    detectMethod (lowerData "create list") = "GET" ∧
    scoreEndpoint (lowerData "list all users") "GET" usersGetEndpoint = 8 ∧
    scoreEndpoint (lowerData "list all users") "GET" usersPostEndpoint = 3 ∧
    (matchWithFallback usersCatalogGetFirst "list all users").toOption.map
      (fun r => (r.endpoint, r.method)) = some ("/users", "GET") ∧
    (matchWithFallback usersCatalogPostFirst "list all users").toOption.map
      (fun r => (r.endpoint, r.method)) = some ("/users", "GET") := by
  decide

/-- C10 (counterexample): with the catalog `[POST /pets]` declaring the
required integer parameter `limit`, the query `"limit=10"` gives every
endpoint score zero, yet `limit` is captured by the request-body extraction
and is *not* reported missing — refuting "every required declared parameter
is reported missing regardless of the query text". -/
theorem C10_counterexample :
    (∀ e ∈ limitPostCatalog.endpoints,
      scoreEndpoint (lowerData "limit=10") (detectMethod (lowerData "limit=10")) e = 0) ∧
    (matchWithFallback limitPostCatalog "limit=10").toOption.map
        (fun r => (r.params, r.missingInfo.isSome))
      = some (some [("limit", JsVal.str "10")], false) := by
  exact ⟨by decide, by decide⟩

/-- C5 (counterexample): against the catalog `[GET /users/accounts]` the query
`"get users accounts"` scores 5 + 3 + 3 = 11, so the fallback's confidence is
11/10 > 1 — refuting "confidence is in the interval [0,1]". -/
theorem C5_counterexample :
    ∃ r, matchWithFallback accountsCatalog "get users accounts" = Except.ok r ∧
      ∃ c, r.confidence = some c ∧ 1 < c := by
  obtain ⟨r, hr⟩ := matchWithFallback_ok accountsCatalog "get users accounts" (by decide)
  refine ⟨r, hr, ((fallbackBest accountsCatalog "get users accounts").1 : ℚ) / 10,
    matchWithFallback_confidence _ _ _ hr, ?_⟩
  rw [show (fallbackBest accountsCatalog "get users accounts").1 = 11 from by decide]
  norm_num

/-- C5 (amended): the fallback confidence always equals `score / 10` for the
best endpoint score, hence is nonnegative, but it is not bounded by 1. -/
theorem C5_confidenceFormula (m : MCPManifest) (q : String) (r : MatchResult)
    (h : matchWithFallback m q = Except.ok r) :
    r.confidence = some (((fallbackBest m q).1 : ℚ) / 10) ∧
      ∃ c, r.confidence = some c ∧ 0 ≤ c := by
  refine ⟨matchWithFallback_confidence m q r h, _,
    matchWithFallback_confidence m q r h, ?_⟩
  positivity

/-- C5 (witness): confidence of the fallback result for `"list all users"`
against the users catalog is the score divided by 10. -/
theorem C5_witness :
    ∃ r, matchWithFallback usersCatalogGetFirst "list all users" = Except.ok r ∧
      r.confidence = some (((fallbackBest usersCatalogGetFirst "list all users").1 : ℚ) / 10) := by
  obtain ⟨r, hr⟩ := matchWithFallback_ok usersCatalogGetFirst "list all users" (by decide)
  exact ⟨r, hr, (C5_confidenceFormula usersCatalogGetFirst "list all users" r hr).1⟩

/-- C6 (counterexample): with a configured semantic backend and a parseable
model response, matching against the *empty* catalog returns an enriched
`MatchResult` fabricated from the model output — no error is raised — refuting
the claim that an empty catalog always surfaces the EmptyCatalog condition. -/
theorem C6_counterexample :
    matchQuery emptyCatalog true (SemanticOutcome.response (some fabricatedLlm))
        "list users"
      = Except.ok (enrichResult emptyCatalog fabricatedLlm "list users") ∧
    ¬∃ err, matchQuery emptyCatalog true
        (SemanticOutcome.response (some fabricatedLlm)) "list users"
      = Except.error err := by
  refine ⟨rfl, ?_⟩
  rintro ⟨err, herr⟩
  exact Except.noConfusion herr

/-- C6 (amended): the hard error is raised exactly when the call reaches the
deterministic fallback — directly, without a configured client, or through a
semantic failure — and the catalog is empty; it occurs in no other case, and
no default `MatchResult` is produced there.  On the semantic-success path,
however, no emptiness check happens at all: the enriched model result is
returned even against an empty catalog. -/
theorem C6_emptyCatalog (m : MCPManifest) (q : String) :
    ((∃ err, matchWithFallback m q = Except.error err) ↔ m.endpoints = []) ∧
    ((∃ err, matchQuery m false SemanticOutcome.failure q = Except.error err) ↔
      m.endpoints = []) ∧
    ((∃ err, matchQuery m true SemanticOutcome.failure q = Except.error err) ↔
      m.endpoints = []) ∧
    (∀ llm, matchQuery m true (SemanticOutcome.response (some llm)) q
      = Except.ok (enrichResult m llm q)) := by
  have key : (∃ err, matchWithFallback m q = Except.error err) ↔ m.endpoints = [] := by
    constructor
    · rintro ⟨err, herr⟩
      unfold matchWithFallback at herr
      cases hdb : defaultedBest m q with
      | none => exact defaultedBest_none m q hdb
      | some bm => rw [hdb] at herr; exact Except.noConfusion herr
    · intro h
      have herr : matchWithFallback m q
          = Except.error "TypeError: Cannot read properties of undefined (reading method)" := by
        unfold matchWithFallback defaultedBest fallbackBest pickBest
        rw [h]
        rfl
      exact ⟨_, herr⟩
  exact ⟨key, by simpa [matchQuery] using key,
    by simpa [matchQuery, matchWithOpenAI] using key, fun llm => rfl⟩

/-- C6 (witness): matching against the empty catalog on the fallback path
produces the error, not a `MatchResult`. -/
theorem C6_witness :
    ∃ err, matchWithFallback emptyCatalog "list users" = Except.error err :=
  ((C6_emptyCatalog emptyCatalog "list users").1).mpr rfl

/-- C9: the type-inference helper equals first-match evaluation of the spec's
nine rules in their priority order; in particular a name ending in `_id` is
inferred `integer` whatever later rules it also matches; and the result is
always one of the five best-effort types (defaulting to string). -/
theorem C9_typeInference (fieldName : String) (propDescription : Option String) :
    inferTypeFromName fieldName propDescription
        = specFirstMatch specTypeRules fieldName propDescription ∧
    (strEndsWith (lowerStr fieldName) "_id" = true →
      inferTypeFromName fieldName propDescription = "integer") ∧
    inferTypeFromName fieldName propDescription
        ∈ ["integer", "number", "boolean", "array", "string"] := by
  have h1 : inferTypeFromName fieldName propDescription
      = specFirstMatch specTypeRules fieldName propDescription := by
    simp only [inferTypeFromName, specTypeRules, specFirstMatch]
  refine ⟨h1, fun hid => ?_, ?_⟩
  · unfold inferTypeFromName
    simp [hid]
  · rw [h1]
    have hm := specFirstMatch_mem specTypeRules fieldName propDescription
    simp only [specTypeRules, List.map_cons, List.map_nil, List.mem_cons,
      List.mem_singleton, List.not_mem_nil, or_false] at hm ⊢
    tauto

/-- C9 (witness): `price_id` ends in `_id` and also matches the later price
rule; the first rule wins and the inferred type is `integer`. -/
theorem C9_witness : inferTypeFromName "price_id" none = "integer" :=
  (C9_typeInference "price_id" none).2.1 (by decide)

theorem processParam_preserves (query : List Char) (params : List (String × JsVal))
    (p : MCPParameter) (k : String) (h : p.name ≠ k) :
    lookupKey (processParam query params p) k = lookupKey params k := by
  have hk : k ≠ p.name := fun hh => h hh.symm
  unfold processParam
  cases hf : findNameValue p.name query with
  | none =>
    cases hcond : (p.type = "string" && strContains p.name "date") with
    | false => simp
    | true =>
      cases hd : findDate query with
      | none => simp
      | some d => simp [lookupKey_setKey_other _ _ _ _ hk]
  | some v =>
    cases hcond : (p.type = "string" && strContains p.name "date") with
    | false => simp [lookupKey_setKey_other _ _ _ _ hk]
    | true =>
      cases hd : findDate query with
      | none => simp [lookupKey_setKey_other _ _ _ _ hk]
      | some d => simp [lookupKey_setKey_other _ _ _ _ hk]

theorem foldl_processParam_preserves (query : List Char) (k : String) :
    ∀ (ps : List MCPParameter) (params : List (String × JsVal)),
      (∀ p ∈ ps, p.name ≠ k) →
      lookupKey (ps.foldl (processParam query) params) k = lookupKey params k := by
  intro ps
  induction ps with
  | nil => intro params _; rfl
  | cons p rest ih =>
    intro params hp
    rw [List.foldl_cons,
      ih (processParam query params p) (fun x hx => hp x (List.mem_cons_of_mem p hx))]
    exact processParam_preserves query params p k (hp p (List.mem_cons_self p rest))

theorem processParam_date (query : List Char) (params : List (String × JsVal))
    (p : MCPParameter) (d : List Char)
    (htype : p.type = "string") (hname : strContains p.name "date" = true)
    (hdate : findDate query = some d) :
    lookupKey (processParam query params p) p.name
      = some (JsVal.str (String.mk d)) := by
  have hcond : (p.type = "string" && strContains p.name "date") = true := by
    rw [htype, hname]; rfl
  unfold processParam
  cases hf : findNameValue p.name query with
  | none => simp [hcond, hdate, lookupKey_setKey_self]
  | some v => simp [hcond, hdate, lookupKey_setKey_self]

theorem foldl_processParam_date (query : List Char) (p : MCPParameter) (d : List Char)
    (htype : p.type = "string") (hname : strContains p.name "date" = true)
    (hdate : findDate query = some d) :
    ∀ (ps : List MCPParameter) (params : List (String × JsVal)),
      p ∈ ps → (ps.map (fun x => x.name)).Nodup →
      lookupKey (ps.foldl (processParam query) params) p.name
        = some (JsVal.str (String.mk d)) := by
  intro ps
  induction ps with
  | nil => intro params hmem _; exact absurd hmem (List.not_mem_nil p)
  | cons x rest ih =>
    intro params hmem hnodup
    rw [List.map_cons, List.nodup_cons] at hnodup
    obtain ⟨hx, hrest⟩ := hnodup
    rw [List.foldl_cons]
    rcases List.mem_cons.1 hmem with heq | hmemr
    · subst heq
      rw [foldl_processParam_preserves query p.name rest (processParam query params p)
        (fun y hy hyname => hx (hyname ▸ List.mem_map_of_mem (fun z => z.name) hy))]
      exact processParam_date query params p d htype hname hdate
    · exact ih (processParam query params x) hmemr hrest

/-- C7 (amended): for a declared parameter of type `string` whose name
contains "date" (the code's actual guard), a `YYYY-MM-DD` literal anywhere in
the query is stored under that parameter name — overwriting whatever the
name-based `name[:\s]+value` regex produced, so the date literal wins. -/
theorem C7_dateLiteralWins (query : List Char) (e : MCPEndpoint)
    (ps : List MCPParameter) (p : MCPParameter) (d : List Char)
    (hps : e.parameters = some ps) (hmem : p ∈ ps)
    (hnodup : (ps.map (fun x => x.name)).Nodup)
    (htype : p.type = "string") (hname : strContains p.name "date" = true)
    (hdate : findDate query = some d) :
    lookupKey (extractParametersFromQuery query (some e)) p.name
      = some (JsVal.str (String.mk d)) := by
  simp only [extractParametersFromQuery, hps]
  exact foldl_processParam_date query p d htype hname hdate ps [] hmem hnodup

/-- C7 (witness): the string-typed parameter `start_date` takes the value
`2025-01-15` from the query `"on 2025-01-15"` even though the name-based
regex finds nothing. -/
theorem C7_witness :
    lookupKey (extractParametersFromQuery ("on 2025-01-15".data)
        (some stringDateEndpoint)) "start_date"
      = some (JsVal.str "2025-01-15") :=
  C7_dateLiteralWins ("on 2025-01-15".data) stringDateEndpoint
    [mkParam "start_date" "string" false] (mkParam "start_date" "string" false)
    ("2025-01-15".data) rfl (by decide) (by decide) rfl (by decide) (by decide)

/-- C10 (amended): when every catalog endpoint scores zero, the fallback
defaults to the first catalog entry and declared-parameter extraction is
skipped entirely (it runs against the null pre-default match), so `params`
holds only what the request-body extraction contributes for mutating methods
(nothing at all otherwise); a required declared parameter is reported missing
whenever its name is not among those extracted body keys — in particular,
always, for non-mutating default targets. -/
theorem C10_skippedExtraction (m : MCPManifest) (q : String) (e0 : MCPEndpoint)
    (hhead : m.endpoints.head? = some e0)
    (hzero : ∀ e ∈ m.endpoints,
      scoreEndpoint (lowerData q) (detectMethod (lowerData q)) e = 0) :
    ∃ r, matchWithFallback m q = Except.ok r ∧
      r.endpoint = e0.path ∧ r.method = e0.method ∧
      r.params = some (if isMutating e0.method then
          objAssign [] (extractRequestBodyFields q.data e0) else []) ∧
      (∀ name ∈ requiredParamNames e0,
        hasKey (if isMutating e0.method then
          objAssign [] (extractRequestBodyFields q.data e0) else []) name = false →
        ∃ mi, r.missingInfo = some mi ∧ name ∈ mi.requiredParams) := by
  have hfb : fallbackBest m q = (0, none) := by
    unfold fallbackBest
    exact pickBest_zero _ _ _ hzero
  have hdb : defaultedBest m q = some e0 := by
    unfold defaultedBest
    rw [hfb]
    exact hhead
  have hmain : matchWithFallback m q = Except.ok (buildFallbackResult m q 0 none e0) := by
    unfold matchWithFallback
    rw [hdb, hfb]
  refine ⟨buildFallbackResult m q 0 none e0, hmain, rfl, rfl, rfl, ?_⟩
  intro name hmem habs
  exact analyzeMissing_requiredMem q.data e0 _ name hmem habs

/-- C10 (witness): the query `"xyz"` scores zero against `[DELETE /secret]`;
the defaulted result's params are empty and the required parameter `token` is
reported missing. -/
theorem C10_witness :
    ∃ r, matchWithFallback secretDeleteCatalog "xyz" = Except.ok r ∧
      ∃ mi, r.missingInfo = some mi ∧ "token" ∈ mi.requiredParams := by
  obtain ⟨r, h1, _, _, _, h5⟩ :=
    C10_skippedExtraction secretDeleteCatalog "xyz" secretDeleteEndpoint rfl (by decide)
  exact ⟨r, h1, h5 "token" (by decide) (by decide)⟩

theorem filter_not_nil_iff_all {α : Type} (l : List α) (f : α → Bool) :
    l.filter (fun x => !f x) = [] ↔ l.all f = true := by
  rw [List.filter_eq_nil_iff, List.all_eq_true]
  constructor
  · intro h x hx
    have := h x hx
    simpa using this
  · intro h x hx
    simp [h x hx]

theorem isEmpty_append_cons {α : Type} (l : List α) (y : α) (ys : List α) :
    (l ++ y :: ys).isEmpty = false := by
  cases l <;> rfl

/-- C3: `missingInfo` is absent from the analysis exactly when every required
declared parameter is among the extracted params and (for mutating methods,
the only place the data model allows body fields) every required body field is
among the extracted body fields; and for `requiredFields = [a,b,c]` with only
`a` extracted, the missing body fields are exactly `[b,c]`, listed in
`requestBodyFields` and appended to the missing declared parameters in
`requiredParams`. -/
theorem C3_missingInfo (q : List Char) (e : MCPEndpoint)
    (params : List (String × JsVal))
    (hinv : isMutating e.method = false → requiredBodyFields e = []) :
    (analyzeMissingInformation q e params = none ↔
      ((requiredParamNames e).all (fun p => hasKey params p) = true ∧
       (requiredBodyFields e).all
         (fun f => hasKey (extractRequestBodyFields q e) f) = true)) ∧
    (∀ a b c, isMutating e.method = true →
      requiredBodyFields e = [a, b, c] →
      hasKey (extractRequestBodyFields q e) a = true →
      hasKey (extractRequestBodyFields q e) b = false →
      hasKey (extractRequestBodyFields q e) c = false →
      ∃ mi, analyzeMissingInformation q e params = some mi ∧
        mi.requestBodyFields = some [b, c] ∧
        mi.requiredParams =
          (requiredParamNames e).filter (fun p => !hasKey params p) ++ [b, c]) := by
  constructor
  · simp only [analyzeMissingInformation, analyzeMissingRequestBodyFields]
    cases hm : isMutating e.method with
    | false =>
      simp only [Bool.false_eq_true, if_false, List.append_nil, hinv hm, List.all_nil,
        and_true]
      rw [← filter_not_nil_iff_all]
      cases hfil : (requiredParamNames e).filter (fun p => !hasKey params p) with
      | nil => simp
      | cons x xs => simp
    | true =>
      simp only [if_true]
      cases hbf : (requiredBodyFields e).filter
          (fun f => !hasKey (extractRequestBodyFields q e) f) with
      | nil =>
        have hallB : (requiredBodyFields e).all
            (fun f => hasKey (extractRequestBodyFields q e) f) = true :=
          (filter_not_nil_iff_all _ _).1 hbf
        simp only [List.length_nil, lt_irrefl, if_false, List.append_nil, hallB,
          and_true]
        rw [← filter_not_nil_iff_all]
        cases hfil : (requiredParamNames e).filter (fun p => !hasKey params p) with
        | nil => simp
        | cons x xs => simp
      | cons y ys =>
        have hallB : ¬((requiredBodyFields e).all
            (fun f => hasKey (extractRequestBodyFields q e) f) = true) := by
          intro hall
          rw [(filter_not_nil_iff_all _ _).2 hall] at hbf
          exact List.noConfusion hbf
        simp only [List.length_cons, Nat.zero_lt_succ, if_true,
          isEmpty_append_cons, Bool.false_eq_true, if_false, hallB, and_false,
          iff_false]
        intro hnone
        exact Option.noConfusion hnone
  · intro a b c hm hreq ha hb hc
    simp only [analyzeMissingInformation, analyzeMissingRequestBodyFields, hm,
      if_true, hreq, List.filter_cons, ha, hb, hc, Bool.not_true, Bool.not_false,
      Bool.false_eq_true, if_false, List.filter_nil, List.length_cons,
      Nat.zero_lt_succ, isEmpty_append_cons]
    exact ⟨_, rfl, rfl, rfl⟩

/-- C3 (witness): for the `/book` endpoint requiring `a, b, c` and the query
`"a=1"` (which extracts only `a`), the analysis reports exactly `b` and `c`. -/
theorem C3_witness :
    ∃ mi, analyzeMissingInformation ("a=1".data) abcEndpoint [] = some mi ∧
      mi.requestBodyFields = some ["b", "c"] ∧ mi.requiredParams = ["b", "c"] := by
  obtain ⟨mi, h1, h2, h3⟩ :=
    (C3_missingInfo ("a=1".data) abcEndpoint [] (by decide)).2 "a" "b" "c"
      (by decide) (by decide) (by decide) (by decide) (by decide)
  refine ⟨mi, h1, h2, ?_⟩
  rw [h3]
  decide

end Mcphy
